import Mathlib

/-!
Verification development for the fastapi-example repository.

The embedding models `app/storage.py` (TaskStorage, JobStorage), the job
lifecycle runner `process_job_background` and the relevant request handlers
of `app/main.py`.  Python dicts are modelled as insertion-ordered
association lists (Python dicts preserve insertion order); `datetime.now()`
is modelled by an explicit `now : Nat` argument at every operation that
reads the clock; a fallible handler returns `Except HTTPError`.
-/

namespace App

/-- Task entity, from `app/models.py` class `Task`. -/
structure Task where
  id : Nat
  title : String
  description : Option String
  status : String
  created_at : Nat
  updated_at : Nat
deriving Repr, DecidableEq

/-- ProcessJob entity, from `app/models.py` class `ProcessJob`. -/
structure ProcessJob where
  id : String
  status : String
  data : List String
  result : Option String
  created_at : Nat
  completed_at : Option Nat
deriving Repr, DecidableEq

/-- Lookup in an insertion-ordered association list (Python `dict.get`). -/
def lookupKey {κ β : Type} [BEq κ] (l : List (κ × β)) (k : κ) : Option β :=
  (l.find? (fun p => p.1 == k)).map Prod.snd

/-- Python dict assignment `d[k] = b`: replace the value in place if the key
is present (keeping its position), otherwise append at the end. -/
def dictInsert {κ β : Type} [BEq κ] (l : List (κ × β)) (k : κ) (b : β) : List (κ × β) :=
  if l.any (fun p => p.1 == k) then l.map (fun p => if p.1 == k then (p.1, b) else p)
  else l ++ [(k, b)]

/-- `TaskStorage` from `app/storage.py`: the `tasks` dict plus `next_id`. -/
structure TaskStorage where
  tasks : List (Nat × Task)
  next_id : Nat
deriving Repr, DecidableEq

/-- `TaskStorage.__init__`: empty dict, `next_id = 1`. -/
def TaskStorage.empty : TaskStorage := ⟨[], 1⟩

/-- `TaskStorage.create`: build the task with id `next_id`,
`created_at = updated_at = now`, store it, increment `next_id`. -/
def TaskStorage.create (st : TaskStorage) (title : String) (description : Option String)
    (status : String) (now : Nat) : Task × TaskStorage :=
  let task : Task := ⟨st.next_id, title, description, status, now, now⟩
  (task, ⟨dictInsert st.tasks st.next_id task, st.next_id + 1⟩)

/-- `TaskStorage.get`: `self.tasks.get(task_id)`. -/
def TaskStorage.get (st : TaskStorage) (task_id : Nat) : Option Task :=
  lookupKey st.tasks task_id

/-- `TaskStorage.get_all`: `if status:` is Python truthiness, so both `None`
and the empty string return all tasks; a non-empty status filters. -/
def TaskStorage.get_all (st : TaskStorage) (status : Option String) : List Task :=
  match status with
  | some s =>
      if s = "" then st.tasks.map Prod.snd
      else (st.tasks.map Prod.snd).filter (fun t => t.status == s)
  | none => st.tasks.map Prod.snd

/-- The field updates `TaskStorage.update` performs on the found task:
each field provided (`is not None`) replaces the stored value, absent
fields are left unchanged, and `updated_at` is always set to `now`. -/
def updTask (task : Task) (title description status : Option String) (now : Nat) : Task :=
  ⟨task.id,
   title.getD task.title,
   (description.orElse (fun _ => task.description)),
   status.getD task.status,
   task.created_at,
   now⟩

/-- `TaskStorage.update`: look up the task; if absent return `None` leaving
the store untouched, otherwise mutate the stored object in place. -/
def TaskStorage.update (st : TaskStorage) (task_id : Nat)
    (title description status : Option String) (now : Nat) : Option Task × TaskStorage :=
  match st.get task_id with
  | none => (none, st)
  | some task =>
      let task2 := updTask task title description status now
      (some task2,
       ⟨st.tasks.map (fun p => if p.1 == task_id then (p.1, task2) else p), st.next_id⟩)

/-- `TaskStorage.delete`: `if task_id in self.tasks: del ...; return True`
else `return False`. -/
def TaskStorage.delete (st : TaskStorage) (task_id : Nat) : Bool × TaskStorage :=
  if st.tasks.any (fun p => p.1 == task_id) then
    (true, ⟨st.tasks.filter (fun p => !(p.1 == task_id)), st.next_id⟩)
  else (false, st)

/-- `JobStorage` from `app/storage.py`: the `jobs` dict. -/
structure JobStorage where
  jobs : List (String × ProcessJob)
deriving Repr, DecidableEq

/-- `JobStorage.__init__`. -/
def JobStorage.empty : JobStorage := ⟨[]⟩

/-- `JobStorage.create`: insert a job with status `"queued"`, no result,
`created_at = now`, no `completed_at`. -/
def JobStorage.create (st : JobStorage) (job_id : String) (data : List String)
    (now : Nat) : ProcessJob × JobStorage :=
  let job : ProcessJob := ⟨job_id, "queued", data, none, now, none⟩
  (job, ⟨dictInsert st.jobs job_id job⟩)

/-- `JobStorage.get`: `self.jobs.get(job_id)`. -/
def JobStorage.get (st : JobStorage) (job_id : String) : Option ProcessJob :=
  lookupKey st.jobs job_id

/-- The field updates `JobStorage.update_status` performs on the found job:
status is overwritten; result is set only when provided; `completed_at` is
set to `now` only when the new status is `"completed"` (it is never
cleared). -/
def updJob (job : ProcessJob) (status : String) (result : Option String) (now : Nat) : ProcessJob :=
  ⟨job.id,
   status,
   job.data,
   (result.orElse (fun _ => job.result)),
   job.created_at,
   if status = "completed" then some now else job.completed_at⟩

/-- `JobStorage.update_status`: look up the job; if absent return `None`
leaving the store untouched, otherwise mutate the stored object in place. -/
def JobStorage.update_status (st : JobStorage) (job_id : String) (status : String)
    (result : Option String) (now : Nat) : Option ProcessJob × JobStorage :=
  match st.get job_id with
  | none => (none, st)
  | some job =>
      let job2 := updJob job status result now
      (some job2, ⟨st.jobs.map (fun p => if p.1 == job_id then (p.1, job2) else p)⟩)

/-- The result string computed by `process_job_background`:
`f"Processed {len(data)} items: {', '.join(data)}"`. -/
def job_result_string (data : List String) : String :=
  "Processed " ++ toString data.length ++ " items: " ++ String.intercalate ", " data

/-- `process_job_background` from `app/main.py`: mark the job processing,
sleep for the delay (no state effect, modelled by the two clock readings
`t1` then `t2`), then mark it completed with the result string. -/
def process_job_background (st : JobStorage) (job_id : String) (data : List String)
    (t1 t2 : Nat) : JobStorage :=
  let st1 := (st.update_status job_id "processing" none t1).2
  (st1.update_status job_id "completed" (some (job_result_string data)) t2).2

/-- An HTTPException as raised by the handlers in `app/main.py`. -/
structure HTTPError where
  status_code : Nat
  detail : String
deriving Repr, DecidableEq

/-- The valid task status values accepted by the list handler. -/
def statusEnum : List String := ["pending", "in_progress", "completed"]

/-- Python truthiness of an `Optional[str]`: `None` and `""` are falsy. -/
def truthy (s : Option String) : Bool :=
  match s with
  | none => false
  | some s => !(s == "")

/-- Handler `list_tasks` from `app/main.py`:
`if status_filter and status_filter not in [...]: raise 400`. -/
def list_tasks (st : TaskStorage) (status_filter : Option String) :
    Except HTTPError (List Task) :=
  if truthy status_filter && !(statusEnum.contains (status_filter.getD "")) then
    Except.error ⟨400, "Invalid status filter. Must be: pending, in_progress, or completed"⟩
  else
    Except.ok (st.get_all status_filter)

/-- Handler `get_task` from `app/main.py`. -/
def get_task (st : TaskStorage) (task_id : Nat) : Except HTTPError Task :=
  match st.get task_id with
  | none => Except.error ⟨404, "Task with id " ++ toString task_id ++ " not found"⟩
  | some task => Except.ok task

/-- Handler `get_job_status` from `app/main.py`. -/
def get_job_status (st : JobStorage) (job_id : String) : Except HTTPError ProcessJob :=
  match st.get job_id with
  | none => Except.error ⟨404, "Job with id " ++ job_id ++ " not found"⟩
  | some job => Except.ok job

/-- The `error_messages` dict of handler `trigger_error` in `app/main.py`. -/
def error_message (code : Int) : Option String :=
  if code = 400 then some "Bad Request - Invalid input"
  else if code = 401 then some "Unauthorized - Authentication required"
  else if code = 403 then some "Forbidden - Access denied"
  else if code = 404 then some "Not Found - Resource does not exist"
  else if code = 500 then some "Internal Server Error - Something went wrong"
  else if code = 503 then some "Service Unavailable - Service is temporarily unavailable"
  else none

/-- Handler `trigger_error` from `app/main.py`: unknown codes are first
normalized to 500, then the pair (status code, message) is raised. -/
def trigger_error (code : Int) : Int × String :=
  let c := if (error_message code).isNone then 500 else code
  (c, (error_message c).getD "")

/-- The whole application state: the two module-level stores of
`app/storage.py`. -/
structure AppState where
  task_storage : TaskStorage
  job_storage : JobStorage
deriving Repr, DecidableEq

/-- The store-touching requests the handlers of `app/main.py` serve. -/
inductive Request where
  | createTaskR (title : String) (description : Option String) (status : String) (now : Nat)
  | listTasksR (status_filter : Option String)
  | getTaskR (task_id : Nat)
  | updateTaskR (task_id : Nat) (title description status : Option String) (now : Nat)
  | deleteTaskR (task_id : Nat)
  | startJobR (job_id : String) (data : List String) (now : Nat)
  | getJobR (job_id : String)

/-- Responses produced by the handlers. -/
inductive Response where
  | okTask (t : Task)
  | okTasks (l : List Task)
  | okJob (j : ProcessJob)
  | okDeleted
  | okAccepted (job_id : String)
  | err (e : HTTPError)

/-- Dispatcher over the handlers of `app/main.py`: each request is served
against the current application state and yields a response plus the state
the handler leaves behind. -/
def handle (s : AppState) : Request → Response × AppState
  | .createTaskR t d stt now =>
      let r := s.task_storage.create t d stt now
      (.okTask r.1, ⟨r.2, s.job_storage⟩)
  | .listTasksR sf =>
      match list_tasks s.task_storage sf with
      | .ok l => (.okTasks l, s)
      | .error e => (.err e, s)
  | .getTaskR tid =>
      match get_task s.task_storage tid with
      | .ok t => (.okTask t, s)
      | .error e => (.err e, s)
  | .updateTaskR tid t d stt now =>
      let r := s.task_storage.update tid t d stt now
      match r.1 with
      | some task => (.okTask task, ⟨r.2, s.job_storage⟩)
      | none => (.err ⟨404, "Task with id " ++ toString tid ++ " not found"⟩, ⟨r.2, s.job_storage⟩)
  | .deleteTaskR tid =>
      let r := s.task_storage.delete tid
      if r.1 then (.okDeleted, ⟨r.2, s.job_storage⟩)
      else (.err ⟨404, "Task with id " ++ toString tid ++ " not found"⟩, ⟨r.2, s.job_storage⟩)
  | .startJobR jid data now =>
      let r := s.job_storage.create jid data now
      (.okAccepted jid, ⟨s.task_storage, r.2⟩)
  | .getJobR jid =>
      match get_job_status s.job_storage jid with
      | .ok j => (.okJob j, s)
      | .error e => (.err e, s)

/-- A create or delete operation against the task store, for reasoning
about id assignment across operation sequences. -/
inductive TaskOp where
  | createOp (title : String) (description : Option String) (status : String) (now : Nat)
  | deleteOp (task_id : Nat)

/-- Apply one task-store operation. -/
def applyOp (st : TaskStorage) : TaskOp → TaskStorage
  | .createOp t d s now => (st.create t d s now).2
  | .deleteOp i => (st.delete i).2

/-- Apply a sequence of task-store operations. -/
def applyOps (st : TaskStorage) (ops : List TaskOp) : TaskStorage :=
  ops.foldl applyOp st

/-- Number of create operations in a sequence. -/
def countCreates : List TaskOp → Nat
  | [] => 0
  | .createOp _ _ _ _ :: rest => countCreates rest + 1
  | .deleteOp _ :: rest => countCreates rest

/-- The ids handed out by the create operations of a sequence, in order. -/
def assignedIds (st : TaskStorage) : List TaskOp → List Nat
  | [] => []
  | .createOp t d s n :: rest =>
      st.next_id :: assignedIds (applyOp st (.createOp t d s n)) rest
  | .deleteOp i :: rest => assignedIds (applyOp st (.deleteOp i)) rest

/-- Every key stored in the task map is below `next_id`. -/
def keysBelow (st : TaskStorage) : Prop :=
  ∀ p ∈ st.tasks, p.1 < st.next_id

/-- The spec invariant on one job: `completed_at` is set iff the status is
`"completed"`. -/
def jobOK (j : ProcessJob) : Prop :=
  j.completed_at.isSome = true ↔ j.status = "completed"

/-- The spec invariant over a whole job store. -/
def storeOK (st : JobStorage) : Prop :=
  ∀ p ∈ st.jobs, jobOK p.2

instance (j : ProcessJob) : Decidable (jobOK j) := by
  unfold jobOK; infer_instance

instance (st : JobStorage) : Decidable (storeOK st) := by
  unfold storeOK; exact List.decidableBAll _ _

/-- Concrete one-task store used by witnesses. -/
def taskW : Task := (TaskStorage.empty.create "T" none "pending" 3).1

/-- Concrete one-task store used by witnesses. -/
def taskStoreW : TaskStorage := (TaskStorage.empty.create "T" none "pending" 3).2

/-- Concrete task with a non-null description, used by witnesses. -/
def taskD : Task := (TaskStorage.empty.create "T" (some "d0") "pending" 3).1

/-- Concrete store holding `taskD`, used by witnesses. -/
def taskStoreD : TaskStorage := (TaskStorage.empty.create "T" (some "d0") "pending" 3).2

/-- Concrete job used by witnesses. -/
def jobW : ProcessJob := (JobStorage.empty.create "job-1" ["a", "b"] 0).1

/-- Concrete one-job store used by witnesses. -/
def jobStoreW : JobStorage := (JobStorage.empty.create "job-1" ["a", "b"] 0).2

/-- Concrete job store whose single job is completed, used by the C2
counterexample. -/
def jobStoreC : JobStorage :=
  ((JobStorage.empty.create "job-1" ["a"] 0).2.update_status "job-1" "completed" none 1).2

/-- `find?` by a predicate on the key commutes with a map that preserves keys. -/
theorem find?_key_map {κ β : Type} [BEq κ] (l : List (κ × β)) (k : κ) (f : κ × β → κ × β)
    (hf : ∀ p, (f p).1 = p.1) :
    (l.map f).find? (fun p => p.1 == k) = (l.find? (fun p => p.1 == k)).map f := by
  rw [List.find?_map]
  have h : ((fun p : κ × β => p.1 == k) ∘ f) = (fun p : κ × β => p.1 == k) := by
    funext p
    simp [Function.comp, hf]
  rw [h]

/-- Replacing the value at a present key makes lookup return the new value. -/
theorem lookupKey_map_set {κ β : Type} [BEq κ] (l : List (κ × β)) (k : κ) (b : β) (v : β)
    (h : lookupKey l k = some v) :
    lookupKey (l.map (fun p => if p.1 == k then (p.1, b) else p)) k = some b := by
  unfold lookupKey at h ⊢
  rw [find?_key_map l k _ (by intro p; split <;> rfl)]
  obtain ⟨p0, hp0, hv⟩ := Option.map_eq_some'.mp h
  rw [hp0]
  have hk := List.find?_some hp0
  simp only [Option.map_map, Option.map_some']
  simp [Function.comp, hk]

/-- `TaskStorage.update` on a present id: the returned pair explicitly. -/
theorem TaskStorage.update_found (st : TaskStorage) (task_id : Nat)
    (title description status : Option String) (now : Nat) (task : Task)
    (h : st.get task_id = some task) :
    (st.update task_id title description status now).1 =
      some (updTask task title description status now) ∧
    (st.update task_id title description status now).2.get task_id =
      some (updTask task title description status now) := by
  unfold TaskStorage.update
  rw [h]
  refine ⟨rfl, ?_⟩
  exact lookupKey_map_set st.tasks task_id _ task h

/-- `JobStorage.update_status` on a present id: the returned pair explicitly. -/
theorem JobStorage.update_status_found (st : JobStorage) (job_id : String)
    (status : String) (result : Option String) (now : Nat) (job : ProcessJob)
    (h : st.get job_id = some job) :
    (st.update_status job_id status result now).1 = some (updJob job status result now) ∧
    (st.update_status job_id status result now).2.get job_id =
      some (updJob job status result now) := by
  unfold JobStorage.update_status
  rw [h]
  refine ⟨rfl, ?_⟩
  exact lookupKey_map_set st.jobs job_id _ job h

/-- The first component of `delete` is the membership test. -/
theorem TaskStorage.delete_fst (st : TaskStorage) (task_id : Nat) :
    (st.delete task_id).1 = st.tasks.any (fun p => p.1 == task_id) := by
  unfold TaskStorage.delete
  split
  · rename_i h
    simp [h]
  · rename_i h
    rw [Bool.not_eq_true] at h
    simp [h]

/-- The membership test agrees with `get`. -/
theorem TaskStorage.any_eq_isSome_get (st : TaskStorage) (task_id : Nat) :
    st.tasks.any (fun p => p.1 == task_id) = (st.get task_id).isSome := by
  unfold TaskStorage.get lookupKey
  cases hf : st.tasks.find? (fun p => p.1 == task_id) with
  | none =>
    simp only [Option.map_none', Option.isSome_none]
    rw [List.find?_eq_none] at hf
    rw [Bool.eq_false_iff]
    intro hc
    obtain ⟨x, hx, hpx⟩ := List.any_eq_true.mp hc
    exact hf x hx hpx
  | some p0 =>
    simp only [Option.map_some', Option.isSome_some]
    have h1 : p0 ∈ st.tasks := List.mem_of_find?_eq_some hf
    have h2 : (p0.1 == task_id) = true :=
      @List.find?_some _ (fun q => q.1 == task_id) p0 st.tasks hf
    exact List.any_eq_true.mpr ⟨p0, h1, h2⟩

/-- After `delete`, `get` on the deleted id yields `none` (in either branch). -/
theorem TaskStorage.delete_get_none (st : TaskStorage) (task_id : Nat) :
    (st.delete task_id).2.get task_id = none := by
  unfold TaskStorage.delete
  split
  · unfold TaskStorage.get lookupKey
    have hf : (st.tasks.filter (fun p => !(p.1 == task_id))).find?
        (fun p => p.1 == task_id) = none := by
      rw [List.find?_eq_none]
      intro x hx
      rw [List.mem_filter] at hx
      simpa using hx.2
    simp only [hf, Option.map_none']
  · rename_i h
    rw [Bool.not_eq_true] at h
    unfold TaskStorage.get lookupKey
    have hf : st.tasks.find? (fun p => p.1 == task_id) = none := by
      rw [List.find?_eq_none]
      intro x hx hpx
      have : st.tasks.any (fun p => p.1 == task_id) = true :=
        List.any_eq_true.mpr ⟨x, hx, hpx⟩
      rw [h] at this
      cases this
    simp only [hf, Option.map_none']

/-- `applyOps` unfolding on cons. -/
theorem applyOps_cons (st : TaskStorage) (op : TaskOp) (ops : List TaskOp) :
    applyOps st (op :: ops) = applyOps (applyOp st op) ops := rfl

/-- `delete` never changes `next_id`. -/
theorem TaskStorage.delete_next_id (st : TaskStorage) (i : Nat) :
    (st.delete i).2.next_id = st.next_id := by
  unfold TaskStorage.delete
  split <;> rfl

/-- Running a sequence of operations adds one to `next_id` per create. -/
theorem next_id_applyOps (ops : List TaskOp) :
    ∀ st : TaskStorage, (applyOps st ops).next_id = st.next_id + countCreates ops := by
  induction ops with
  | nil => intro st; rfl
  | cons op rest ih =>
    intro st
    rw [applyOps_cons, ih]
    cases op with
    | createOp t d s n =>
      have h1 : (applyOp st (TaskOp.createOp t d s n)).next_id = st.next_id + 1 := rfl
      have h2 : countCreates (TaskOp.createOp t d s n :: rest) = countCreates rest + 1 := rfl
      rw [h1, h2]
      omega
    | deleteOp i =>
      have h2 : countCreates (TaskOp.deleteOp i :: rest) = countCreates rest := rfl
      rw [h2]
      show (st.delete i).2.next_id + countCreates rest = st.next_id + countCreates rest
      rw [TaskStorage.delete_next_id]

/-- Every id handed out while running a sequence of operations is strictly
below the final `next_id`. -/
theorem assigned_lt (ops : List TaskOp) :
    ∀ st : TaskStorage, ∀ i ∈ assignedIds st ops, i < (applyOps st ops).next_id := by
  induction ops with
  | nil => intro st i hi; cases hi
  | cons op rest ih =>
    intro st i hi
    rw [applyOps_cons]
    cases op with
    | createOp t d s n =>
      unfold assignedIds at hi
      rcases List.mem_cons.mp hi with h | h
      · subst h
        rw [next_id_applyOps]
        have : (applyOp st (TaskOp.createOp t d s n)).next_id = st.next_id + 1 := rfl
        omega
      · exact ih _ i h
    | deleteOp j =>
      unfold assignedIds at hi
      exact ih _ i hi

/-- With all keys below `next_id`, the fresh-key membership test of `create`
fails. -/
theorem any_next_id_false (st : TaskStorage) (h : keysBelow st) :
    st.tasks.any (fun q => q.1 == st.next_id) = false := by
  rw [Bool.eq_false_iff]
  intro hc
  obtain ⟨q, hq, hqe⟩ := List.any_eq_true.mp hc
  have he : q.1 = st.next_id := by simpa using hqe
  have := h q hq
  omega

/-- `keysBelow` is preserved by every operation. -/
theorem keysBelow_applyOp (st : TaskStorage) (op : TaskOp) (h : keysBelow st) :
    keysBelow (applyOp st op) := by
  cases op with
  | createOp t d s n =>
    intro p hp
    have hany := any_next_id_false st h
    show p.1 < st.next_id + 1
    have hp2 : p ∈ dictInsert st.tasks st.next_id ⟨st.next_id, t, d, s, n, n⟩ := hp
    unfold dictInsert at hp2
    rw [if_neg (by simp [hany])] at hp2
    rcases List.mem_append.mp hp2 with hm | hm
    · have := h p hm
      omega
    · simp only [List.mem_singleton] at hm
      subst hm
      exact Nat.lt_succ_self st.next_id
  | deleteOp i =>
    intro p hp
    show p.1 < (st.delete i).2.next_id
    rw [TaskStorage.delete_next_id]
    have hp2 : p ∈ (st.delete i).2.tasks := hp
    unfold TaskStorage.delete at hp2
    by_cases hc : st.tasks.any (fun q => q.1 == i) = true
    · rw [if_pos hc] at hp2
      exact h p (List.mem_filter.mp hp2).1
    · rw [if_neg hc] at hp2
      exact h p hp2

/-- `keysBelow` holds along every run from the empty store. -/
theorem keysBelow_applyOps (ops : List TaskOp) :
    ∀ st : TaskStorage, keysBelow st → keysBelow (applyOps st ops) := by
  induction ops with
  | nil => intro st h; exact h
  | cons op rest ih =>
    intro st h
    rw [applyOps_cons]
    exact ih _ (keysBelow_applyOp st op h)

/-- The empty store trivially satisfies `keysBelow`. -/
theorem keysBelow_empty : keysBelow TaskStorage.empty := by
  intro p hp
  cases hp

/-- Field computation of `updJob`: status is overwritten. -/
theorem updJob_status (job : ProcessJob) (s : String) (r : Option String) (n : Nat) :
    (updJob job s r n).status = s := rfl

/-- Field computation of `updJob`: result is replaced only when provided. -/
theorem updJob_result (job : ProcessJob) (s : String) (r : Option String) (n : Nat) :
    (updJob job s r n).result = (r.orElse (fun _ => job.result)) := rfl

/-- Field computation of `updJob`: `completed_at` is stamped only on
completion, otherwise left as it was. -/
theorem updJob_completed_at (job : ProcessJob) (s : String) (r : Option String) (n : Nat) :
    (updJob job s r n).completed_at = if s = "completed" then some n else job.completed_at := rfl

/-- C1: for every job id present in the job store with non-empty input data,
the lifecycle runner first sets the job status to "processing" (leaving
result and completed_at untouched), and then sets it to "completed"
together with the result string reporting the input count and the input
values in their original order, and stamps `completed_at`. -/
theorem C1_runner_lifecycle (st : JobStorage) (job_id : String) (data : List String)
    (job : ProcessJob) (t1 t2 : Nat)
    (hfound : st.get job_id = some job) (_hdata : data ≠ []) :
    ∃ j1 j2,
      ((st.update_status job_id "processing" none t1).2).get job_id = some j1 ∧
      j1.status = "processing" ∧
      j1.result = job.result ∧
      j1.completed_at = job.completed_at ∧
      (process_job_background st job_id data t1 t2).get job_id = some j2 ∧
      j2.status = "completed" ∧
      j2.result = some ("Processed " ++ toString data.length ++ " items: " ++
        String.intercalate ", " data) ∧
      j2.completed_at = some t2 := by
  obtain ⟨h1a, h1b⟩ := JobStorage.update_status_found st job_id "processing" none t1 job hfound
  obtain ⟨h2a, h2b⟩ := JobStorage.update_status_found
    ((st.update_status job_id "processing" none t1).2) job_id "completed"
    (some (job_result_string data)) t2 (updJob job "processing" none t1) h1b
  refine ⟨updJob job "processing" none t1,
    updJob (updJob job "processing" none t1) "completed" (some (job_result_string data)) t2,
    h1b, rfl, rfl, ?_, h2b, rfl, rfl, ?_⟩
  · rw [updJob_completed_at, if_neg (by decide)]
  · rw [updJob_completed_at, if_pos rfl]

/-- Witness for C1 at a concrete one-job store. -/
theorem C1_runner_lifecycle_witness :
    ∃ j1 j2,
      ((jobStoreW.update_status "job-1" "processing" none 1).2).get "job-1" = some j1 ∧
      j1.status = "processing" ∧
      j1.result = jobW.result ∧
      j1.completed_at = jobW.completed_at ∧
      (process_job_background jobStoreW "job-1" ["a", "b"] 1 2).get "job-1" = some j2 ∧
      j2.status = "completed" ∧
      j2.result = some ("Processed " ++ toString (["a", "b"] : List String).length ++
        " items: " ++ String.intercalate ", " ["a", "b"]) ∧
      j2.completed_at = some 2 :=
  C1_runner_lifecycle jobStoreW "job-1" ["a", "b"] jobW 1 2 (by decide) (by decide)

/-- C2 counterexample: the claim fails as stated — a store satisfying the
invariant stops satisfying it after `update_status` with status "queued"
on an already-completed job, because `completed_at` is never cleared. -/
theorem C2_counterexample :
    storeOK jobStoreC ∧ ¬ storeOK ((jobStoreC.update_status "job-1" "queued" none 2).2) := by
  constructor
  · decide
  · decide

/-- C2 (amended): `create` establishes the completed_at-iff-completed
invariant, and `update_status` preserves it provided the status argument is
"completed" or the targeted job's `completed_at` is still unset. -/
theorem C2_completed_at_invariant (st : JobStorage) (hst : storeOK st) :
    (∀ jid data now, storeOK ((st.create jid data now).2)) ∧
    (∀ job_id stat result now,
      (stat = "completed" ∨ ∀ p ∈ st.jobs, p.1 = job_id → p.2.completed_at = none) →
      storeOK ((st.update_status job_id stat result now).2)) := by
  have hqueued : ("queued" : String) ≠ "completed" := by decide
  constructor
  · intro jid data now p hp
    have hp2 : p ∈ dictInsert st.jobs jid ⟨jid, "queued", data, none, now, none⟩ := hp
    unfold dictInsert at hp2
    by_cases hc : st.jobs.any (fun q => q.1 == jid) = true
    · rw [if_pos hc] at hp2
      obtain ⟨q, hq, hfq⟩ := List.mem_map.mp hp2
      by_cases hk : (q.1 == jid) = true
      · rw [← hfq]
        show jobOK (if q.1 == jid then (q.1, (⟨jid, "queued", data, none, now, none⟩ : ProcessJob)) else q).2
        rw [if_pos hk]
        unfold jobOK
        simp [hqueued]
      · rw [← hfq]
        show jobOK (if q.1 == jid then (q.1, (⟨jid, "queued", data, none, now, none⟩ : ProcessJob)) else q).2
        rw [if_neg hk]
        exact hst q hq
    · rw [if_neg hc] at hp2
      rcases List.mem_append.mp hp2 with hm | hm
      · exact hst p hm
      · simp only [List.mem_singleton] at hm
        subst hm
        unfold jobOK
        simp [hqueued]
  · intro job_id stat result now hpre p hp
    cases hg : st.get job_id with
    | none =>
      have heq : (st.update_status job_id stat result now) = (none, st) := by
        unfold JobStorage.update_status
        rw [hg]
      rw [heq] at hp
      exact hst p hp
    | some job =>
      have h2 : (st.update_status job_id stat result now).2.jobs =
          st.jobs.map (fun q => if q.1 == job_id then (q.1, updJob job stat result now) else q) := by
        unfold JobStorage.update_status
        rw [hg]
      rw [h2] at hp
      obtain ⟨q, hq, hfq⟩ := List.mem_map.mp hp
      by_cases hk : (q.1 == job_id) = true
      · rw [← hfq]
        show jobOK (if q.1 == job_id then (q.1, updJob job stat result now) else q).2
        rw [if_pos hk]
        show jobOK (updJob job stat result now)
        unfold jobOK
        rw [updJob_status, updJob_completed_at]
        by_cases hcs : stat = "completed"
        · rw [if_pos hcs]
          simp [hcs]
        · rcases hpre with hpre | hpre
          · exact absurd hpre hcs
          · have hjob : job.completed_at = none := by
              unfold JobStorage.get lookupKey at hg
              obtain ⟨p0, hp0, hv⟩ := Option.map_eq_some'.mp hg
              have hm := List.mem_of_find?_eq_some hp0
              have hkey : (p0.1 == job_id) = true :=
                @List.find?_some _ (fun r => r.1 == job_id) p0 st.jobs hp0
              have hkey2 : p0.1 = job_id := by simpa using hkey
              rw [← hv]
              exact hpre p0 hm hkey2
            rw [if_neg hcs, hjob]
            simp [hcs]
      · rw [← hfq]
        show jobOK (if q.1 == job_id then (q.1, updJob job stat result now) else q).2
        rw [if_neg hk]
        exact hst q hq

/-- Witness for C2 (amended) at a concrete one-job store, both for a create
and for an update whose hypotheses hold. -/
theorem C2_completed_at_invariant_witness :
    storeOK jobStoreW ∧
    ((∀ jid data now, storeOK ((jobStoreW.create jid data now).2)) ∧
     (∀ job_id stat result now,
       (stat = "completed" ∨ ∀ p ∈ jobStoreW.jobs, p.1 = job_id → p.2.completed_at = none) →
       storeOK ((jobStoreW.update_status job_id stat result now).2))) :=
  ⟨by decide, C2_completed_at_invariant jobStoreW (by decide)⟩

/-- C3: starting from the empty store, after any sequence of create and
delete operations the next create assigns id `1 + number of creates so far`
(sequential from 1, deletes do not free ids), which is strictly greater
than every id ever assigned before; the created task has
`created_at = updated_at` and appears in an immediately following
`get_all none`. -/
theorem C3_sequential_ids (ops : List TaskOp) (title : String) (description : Option String)
    (stat : String) (now : Nat) :
    ((applyOps TaskStorage.empty ops).create title description stat now).1.id =
      1 + countCreates ops ∧
    (∀ i ∈ assignedIds TaskStorage.empty ops,
      i < ((applyOps TaskStorage.empty ops).create title description stat now).1.id) ∧
    ((applyOps TaskStorage.empty ops).create title description stat now).1.created_at =
      ((applyOps TaskStorage.empty ops).create title description stat now).1.updated_at ∧
    ((applyOps TaskStorage.empty ops).create title description stat now).1 ∈
      ((applyOps TaskStorage.empty ops).create title description stat now).2.get_all none := by
  have hid : ((applyOps TaskStorage.empty ops).create title description stat now).1.id =
      (applyOps TaskStorage.empty ops).next_id := rfl
  have hnext : (applyOps TaskStorage.empty ops).next_id = 1 + countCreates ops := by
    rw [next_id_applyOps]
    show 1 + countCreates ops = 1 + countCreates ops
    rfl
  refine ⟨by rw [hid, hnext], ?_, rfl, ?_⟩
  · intro i hi
    rw [hid]
    exact assigned_lt ops TaskStorage.empty i hi
  · have hkb : keysBelow (applyOps TaskStorage.empty ops) :=
      keysBelow_applyOps ops TaskStorage.empty keysBelow_empty
    have hany := any_next_id_false (applyOps TaskStorage.empty ops) hkb
    set st := applyOps TaskStorage.empty ops with hst
    show (st.create title description stat now).1 ∈
      ((st.create title description stat now).2.tasks.map Prod.snd)
    have htasks : (st.create title description stat now).2.tasks =
        st.tasks ++ [(st.next_id, (st.create title description stat now).1)] := by
      show dictInsert st.tasks st.next_id (st.create title description stat now).1 =
        st.tasks ++ [(st.next_id, (st.create title description stat now).1)]
      unfold dictInsert
      rw [if_neg (by simp [hany])]
    rw [htasks, List.map_append]
    apply List.mem_append.mpr
    right
    simp

/-- Witness for C3 at a concrete operation sequence (a create followed by a
delete of the created task). -/
theorem C3_sequential_ids_witness :
    ((applyOps TaskStorage.empty [TaskOp.createOp "a" none "pending" 0, TaskOp.deleteOp 1]).create
        "b" none "pending" 7).1.id =
      1 + countCreates [TaskOp.createOp "a" none "pending" 0, TaskOp.deleteOp 1] ∧
    (∀ i ∈ assignedIds TaskStorage.empty [TaskOp.createOp "a" none "pending" 0, TaskOp.deleteOp 1],
      i < ((applyOps TaskStorage.empty
        [TaskOp.createOp "a" none "pending" 0, TaskOp.deleteOp 1]).create
          "b" none "pending" 7).1.id) ∧
    ((applyOps TaskStorage.empty [TaskOp.createOp "a" none "pending" 0, TaskOp.deleteOp 1]).create
        "b" none "pending" 7).1.created_at =
      ((applyOps TaskStorage.empty [TaskOp.createOp "a" none "pending" 0, TaskOp.deleteOp 1]).create
        "b" none "pending" 7).1.updated_at ∧
    ((applyOps TaskStorage.empty [TaskOp.createOp "a" none "pending" 0, TaskOp.deleteOp 1]).create
        "b" none "pending" 7).1 ∈
      ((applyOps TaskStorage.empty [TaskOp.createOp "a" none "pending" 0, TaskOp.deleteOp 1]).create
        "b" none "pending" 7).2.get_all none :=
  C3_sequential_ids [TaskOp.createOp "a" none "pending" 0, TaskOp.deleteOp 1] "b" none "pending" 7

/-- C4: `update` on a present id replaces exactly the provided fields,
leaves absent fields unchanged, always sets `updated_at` to the current
time (which is no earlier than the previous `updated_at` under a monotone
clock), and on an absent id returns not-found leaving the store unchanged. -/
theorem C4_update_semantics (st : TaskStorage) (task_id : Nat)
    (title description stat : Option String) (now : Nat) :
    (∀ task, st.get task_id = some task → task.updated_at ≤ now →
      ∃ task2,
        (st.update task_id title description stat now).1 = some task2 ∧
        (st.update task_id title description stat now).2.get task_id = some task2 ∧
        (∀ x, title = some x → task2.title = x) ∧
        (title = none → task2.title = task.title) ∧
        (∀ x, description = some x → task2.description = some x) ∧
        (description = none → task2.description = task.description) ∧
        (∀ x, stat = some x → task2.status = x) ∧
        (stat = none → task2.status = task.status) ∧
        task2.updated_at = now ∧
        task.updated_at ≤ task2.updated_at ∧
        task2.id = task.id ∧
        task2.created_at = task.created_at) ∧
    (st.get task_id = none → st.update task_id title description stat now = (none, st)) := by
  constructor
  · intro task hfound hle
    obtain ⟨h1, h2⟩ := TaskStorage.update_found st task_id title description stat now task hfound
    refine ⟨updTask task title description stat now, h1, h2, ?_, ?_, ?_, ?_, ?_, ?_, rfl, hle, rfl, rfl⟩
    · intro x hx
      subst hx
      rfl
    · intro hx
      subst hx
      rfl
    · intro x hx
      subst hx
      rfl
    · intro hx
      subst hx
      rfl
    · intro x hx
      subst hx
      rfl
    · intro hx
      subst hx
      rfl
  · intro hnone
    unfold TaskStorage.update
    rw [hnone]

/-- Witness for C4 at a concrete one-task store: update of status only. -/
theorem C4_update_semantics_witness :
    ∃ task2,
      (taskStoreW.update 1 none none (some "completed") 5).1 = some task2 ∧
      (taskStoreW.update 1 none none (some "completed") 5).2.get 1 = some task2 ∧
      (∀ x, (none : Option String) = some x → task2.title = x) ∧
      ((none : Option String) = none → task2.title = taskW.title) ∧
      (∀ x, (none : Option String) = some x → task2.description = some x) ∧
      ((none : Option String) = none → task2.description = taskW.description) ∧
      (∀ x, (some "completed" : Option String) = some x → task2.status = x) ∧
      ((some "completed" : Option String) = none → task2.status = taskW.status) ∧
      task2.updated_at = 5 ∧
      taskW.updated_at ≤ task2.updated_at ∧
      task2.id = taskW.id ∧
      task2.created_at = taskW.created_at :=
  (C4_update_semantics taskStoreW 1 none none (some "completed") 5).1 taskW (by decide) (by decide)

/-- C5: for a status value in the task-status enum, `get_all` with that
filter returns exactly the stored tasks having that status, as an
order-preserving sublist of the full insertion-order listing, and `get_all`
with no filter returns all tasks in insertion order. -/
theorem C5_list_filter (st : TaskStorage) (s : String) (hs : s ∈ statusEnum) :
    st.get_all none = st.tasks.map Prod.snd ∧
    st.get_all (some s) = (st.get_all none).filter (fun t => t.status == s) ∧
    (st.get_all (some s)).Sublist (st.get_all none) ∧
    (∀ t, t ∈ st.get_all (some s) ↔ t ∈ st.get_all none ∧ t.status = s) := by
  have hne : s ≠ "" := by
    intro h
    subst h
    exact absurd hs (by decide)
  have h1 : st.get_all none = st.tasks.map Prod.snd := rfl
  have h2 : st.get_all (some s) = (st.tasks.map Prod.snd).filter (fun t => t.status == s) := by
    show (if s = "" then st.tasks.map Prod.snd
        else (st.tasks.map Prod.snd).filter (fun t => t.status == s)) =
      (st.tasks.map Prod.snd).filter (fun t => t.status == s)
    rw [if_neg hne]
  refine ⟨h1, by rw [h2, h1], ?_, ?_⟩
  · rw [h2, h1]
    exact List.filter_sublist _
  · intro t
    rw [h2, h1, List.mem_filter]
    constructor
    · rintro ⟨hm, hb⟩
      exact ⟨hm, by simpa using hb⟩
    · rintro ⟨hm, he⟩
      exact ⟨hm, by simp [he]⟩

/-- Witness for C5 at a concrete one-task store with the "pending" filter. -/
theorem C5_list_filter_witness :
    taskStoreW.get_all none = taskStoreW.tasks.map Prod.snd ∧
    taskStoreW.get_all (some "pending") =
      (taskStoreW.get_all none).filter (fun t => t.status == "pending") ∧
    (taskStoreW.get_all (some "pending")).Sublist (taskStoreW.get_all none) ∧
    (∀ t, t ∈ taskStoreW.get_all (some "pending") ↔
      t ∈ taskStoreW.get_all none ∧ t.status = "pending") :=
  C5_list_filter taskStoreW "pending" (by decide)

/-- C6 counterexample: the empty string is a status filter outside the
enum, yet the list handler does not reject it — it consults the store and
returns its full contents, because `if status_filter:` treats the empty
string as falsy. -/
theorem C6_counterexample :
    "" ∉ statusEnum ∧
    list_tasks taskStoreW (some "") = Except.ok [taskW] := by
  refine ⟨by decide, ?_⟩
  rfl

/-- C6 (amended): every NON-EMPTY status filter outside the enum is
rejected with a 400 validation error, with the same result for every store
state (the store is not consulted). -/
theorem C6_reject_invalid_filter (st : TaskStorage) (s : String)
    (h1 : s ≠ "") (h2 : s ∉ statusEnum) :
    list_tasks st (some s) =
      Except.error ⟨400, "Invalid status filter. Must be: pending, in_progress, or completed"⟩ := by
  have ht : truthy (some s) = true := by
    unfold truthy
    simp [h1]
  have hc : statusEnum.contains ((some s).getD "") = false := by
    simp only [Option.getD_some]
    rw [Bool.eq_false_iff]
    intro hcc
    have hmem : s ∈ statusEnum := by simpa using hcc
    exact h2 hmem
  unfold list_tasks
  rw [ht, hc]
  rfl

/-- Witness for C6 (amended) at a concrete store and filter value. -/
theorem C6_reject_invalid_filter_witness :
    list_tasks taskStoreW (some "bogus") =
      Except.error ⟨400, "Invalid status filter. Must be: pending, in_progress, or completed"⟩ :=
  C6_reject_invalid_filter taskStoreW "bogus" (by decide) (by decide)

/-- C7: `delete` returns true exactly when the id is present, returns
false leaving the store unchanged when it is absent (no exception), and
after the call `get` on that id yields not-found. -/
theorem C7_delete_semantics (st : TaskStorage) (task_id : Nat) :
    ((st.delete task_id).1 = true ↔ (st.get task_id).isSome = true) ∧
    ((st.delete task_id).1 = false → st.delete task_id = (false, st)) ∧
    (st.delete task_id).2.get task_id = none := by
  refine ⟨?_, ?_, TaskStorage.delete_get_none st task_id⟩
  · rw [TaskStorage.delete_fst, TaskStorage.any_eq_isSome_get]
  · intro hf
    have hany : st.tasks.any (fun p => p.1 == task_id) = false := by
      rw [← TaskStorage.delete_fst]
      exact hf
    unfold TaskStorage.delete
    rw [if_neg (by simp [hany])]

/-- Witness for C7 at a concrete one-task store. -/
theorem C7_delete_semantics_witness :
    ((taskStoreW.delete 1).1 = true ↔ (taskStoreW.get 1).isSome = true) ∧
    ((taskStoreW.delete 1).1 = false → taskStoreW.delete 1 = (false, taskStoreW)) ∧
    (taskStoreW.delete 1).2.get 1 = none :=
  C7_delete_semantics taskStoreW 1

/-- C8: every unrecognized code yields exactly the status and message of
code 500, and every recognized code yields its fixed message. -/
theorem C8_error_mapping (code : Int)
    (h : code ∉ ([400, 401, 403, 404, 500, 503] : List Int)) :
    trigger_error code = trigger_error 500 ∧
    trigger_error code = (500, "Internal Server Error - Something went wrong") ∧
    trigger_error 400 = (400, "Bad Request - Invalid input") ∧
    trigger_error 401 = (401, "Unauthorized - Authentication required") ∧
    trigger_error 403 = (403, "Forbidden - Access denied") ∧
    trigger_error 404 = (404, "Not Found - Resource does not exist") ∧
    trigger_error 500 = (500, "Internal Server Error - Something went wrong") ∧
    trigger_error 503 = (503, "Service Unavailable - Service is temporarily unavailable") := by
  have h6 : code ≠ 400 ∧ code ≠ 401 ∧ code ≠ 403 ∧ code ≠ 404 ∧ code ≠ 500 ∧ code ≠ 503 := by
    simpa using h
  obtain ⟨e1, e2, e3, e4, e5, e6⟩ := h6
  have hm : error_message code = none := by
    unfold error_message
    rw [if_neg e1, if_neg e2, if_neg e3, if_neg e4, if_neg e5, if_neg e6]
  have h1 : trigger_error code = (500, "Internal Server Error - Something went wrong") := by
    have hmid : trigger_error code = (500, (error_message 500).getD "") := by
      simp [trigger_error, hm]
    rw [hmid]
    rfl
  exact ⟨by rw [h1]; rfl, h1, rfl, rfl, rfl, rfl, rfl, rfl⟩

/-- Witness for C8 at the concrete unrecognized code 7. -/
theorem C8_error_mapping_witness :
    trigger_error 7 = trigger_error 500 ∧
    trigger_error 7 = (500, "Internal Server Error - Something went wrong") ∧
    trigger_error 400 = (400, "Bad Request - Invalid input") ∧
    trigger_error 401 = (401, "Unauthorized - Authentication required") ∧
    trigger_error 403 = (403, "Forbidden - Access denied") ∧
    trigger_error 404 = (404, "Not Found - Resource does not exist") ∧
    trigger_error 500 = (500, "Internal Server Error - Something went wrong") ∧
    trigger_error 503 = (503, "Service Unavailable - Service is temporarily unavailable") :=
  C8_error_mapping 7 (by decide)

/-- C9: once a stored task has a non-null description, no `update` call can
make it null again: a provided description always stores a non-null value
and an absent one leaves the stored value untouched. -/
theorem C9_description_never_cleared (st : TaskStorage) (update_id query_id : Nat)
    (title description stat : Option String) (now : Nat) (task task2 : Task)
    (hq : st.get query_id = some task)
    (hd : task.description.isSome = true)
    (hq2 : (st.update update_id title description stat now).2.get query_id = some task2) :
    task2.description.isSome = true := by
  have hqc := hq
  cases hu : st.get update_id with
  | none =>
    have heq : st.update update_id title description stat now = (none, st) := by
      unfold TaskStorage.update
      rw [hu]
    rw [heq] at hq2
    rw [hq] at hq2
    cases hq2
    exact hd
  | some task0 =>
    have h2 : (st.update update_id title description stat now).2.tasks =
        st.tasks.map
          (fun p => if p.1 == update_id then (p.1, updTask task0 title description stat now) else p) := by
      unfold TaskStorage.update
      rw [hu]
    have hq2m : lookupKey
        (st.tasks.map
          (fun p => if p.1 == update_id then (p.1, updTask task0 title description stat now) else p))
        query_id = some task2 := by
      rw [← h2]
      exact hq2
    unfold lookupKey at hq2m
    rw [find?_key_map st.tasks query_id _ (by intro p; split <;> rfl)] at hq2m
    unfold TaskStorage.get lookupKey at hq
    obtain ⟨p0, hp0, hv⟩ := Option.map_eq_some'.mp hq
    rw [hp0] at hq2m
    simp only [Option.map_some'] at hq2m
    have hval : (if p0.1 == update_id
        then (p0.1, updTask task0 title description stat now) else p0).2 = task2 := by
      injection hq2m
    by_cases hk : (p0.1 == update_id) = true
    · rw [if_pos hk] at hval
      cases description with
      | some d =>
        rw [← hval]
        rfl
      | none =>
        have hid : p0.1 = update_id := by simpa using hk
        have hkey : (p0.1 == query_id) = true :=
          @List.find?_some _ (fun r => r.1 == query_id) p0 st.tasks hp0
        have hid2 : p0.1 = query_id := by simpa using hkey
        have hqq : update_id = query_id := by rw [← hid, hid2]
        rw [hqq] at hu
        have htt : task0 = task := by
          have hts := hu.symm.trans hqc
          injection hts
        rw [← hval]
        show (updTask task0 title none stat now).description.isSome = true
        have hdesc : (updTask task0 title none stat now).description = task0.description := rfl
        rw [hdesc, htt]
        exact hd
    · rw [if_neg hk] at hval
      rw [← hval, hv]
      exact hd

/-- Witness for C9 at a concrete store whose task has a description. -/
theorem C9_description_never_cleared_witness :
    (updTask taskD none none (some "completed") 5).description.isSome = true :=
  C9_description_never_cleared taskStoreD 1 1 none none (some "completed") 5 taskD
    (updTask taskD none none (some "completed") 5) (by decide) (by decide) (by decide)

/-- C10: the read handlers — get task, list tasks (with or without
filter), get job — leave the whole application state unchanged, for every
state and argument, including absent ids and invalid filters. -/
theorem C10_reads_pure (s : AppState) (task_id : Nat) (job_id : String)
    (status_filter : Option String) :
    (handle s (Request.getTaskR task_id)).2 = s ∧
    (handle s (Request.listTasksR status_filter)).2 = s ∧
    (handle s (Request.getJobR job_id)).2 = s := by
  refine ⟨?_, ?_, ?_⟩
  · cases hg : get_task s.task_storage task_id with
    | ok t => simp [handle, hg]
    | error e => simp [handle, hg]
  · cases hg : list_tasks s.task_storage status_filter with
    | ok l => simp [handle, hg]
    | error e => simp [handle, hg]
  · cases hg : get_job_status s.job_storage job_id with
    | ok j => simp [handle, hg]
    | error e => simp [handle, hg]

end App
